import Mathlib

/-!
# Verification of the accuracy-enhance-RAG retrieval-and-verification pipeline

Shallow embedding of the core algorithms of the repository:

* `app.py` — `AdvancedHallucinationReducer`: smart chunking with overlap,
  ensemble extraction and aggregation, claim extraction and verification,
  fact-extraction validation, adversarial validation, and the
  `/api/analyze-advanced` orchestrator.
* `app2.py` — `retrieve_documents`: the source-diversified selection of
  retrieval matches (lines 490–526).

External collaborators (the Together AI LLM, the embedding model, Pinecone)
are abstracted: the LLM is a pure oracle `CompletionRequest → Except String String`
(`.error` models a raised exception of the client call), and the retriever is
modelled from its candidate-match list onwards.  Python floats are modelled as
exact rationals (`mkRat`), `str.lower` as ASCII charwise lowering, and
`difflib.SequenceMatcher`'s autojunk heuristic (active only for inputs of
length ≥ 200) is not modelled.  `hashlib.md5` is implemented bit-faithfully.
-/

/-! ## Python string primitives, over `List Char` / `String` -/

/-- Python whitespace characters (`str.split()`, `str.strip()`, regex `\s`):
space, tab, newline, carriage return, form feed, vertical tab (ASCII model). -/
def pyIsSpace (c : Char) : Bool :=
  c = ' ' || c = '\t' || c = '\n' || c = '\x0d' || c = '\x0c' || c = '\x0b'

/-- `str.lower`, ASCII model (charwise). -/
def pyLowerL (l : List Char) : List Char := l.map Char.toLower

def pyLower (s : String) : String := ⟨pyLowerL s.data⟩

/-- Helper for `str.split()`: accumulate the current word (reversed). -/
def pySplitAux : List Char → List Char → List (List Char)
  | [], cur => if cur = [] then [] else [cur.reverse]
  | c :: cs, cur =>
    if pyIsSpace c then
      if cur = [] then pySplitAux cs [] else cur.reverse :: pySplitAux cs []
    else pySplitAux cs (c :: cur)

/-- Python `str.split()` (no argument): split on whitespace runs, no empty parts. -/
def pySplitL (l : List Char) : List (List Char) := pySplitAux l []

def pySplit (s : String) : List String := (pySplitL s.data).map (fun w => ⟨w⟩)

/-- Python `str.strip()`. -/
def pyStripL (l : List Char) : List Char :=
  ((l.dropWhile pyIsSpace).reverse.dropWhile pyIsSpace).reverse

def pyStrip (s : String) : String := ⟨pyStripL s.data⟩

/-- Python `str.startswith`. -/
def pyStartsWith (s pre : String) : Bool := pre.data.isPrefixOf s.data

/-- Python substring test `sub in s`, over char lists. -/
def pyInL : List Char → List Char → Bool
  | sub, [] => sub = []
  | sub, c :: cs => sub.isPrefixOf (c :: cs) || pyInL sub cs

/-- Python `sub in s` (contiguous substring test). -/
def pyIn (sub s : String) : Bool := pyInL sub.data s.data

/-- `re.split('[<seps>]+', s)`: split on runs of separator characters; a leading
or trailing separator run yields an empty piece, runs in the middle yield none.
`inSep` records that we are inside a separator run just after emitting a piece. -/
def splitRunsAux (seps : List Char) : List Char → List Char → Bool → List (List Char)
  | [], cur, _ => [cur.reverse]
  | c :: cs, cur, inSep =>
    if inSep then
      if c ∈ seps then splitRunsAux seps cs [] true
      else splitRunsAux seps cs [c] false
    else if c ∈ seps then cur.reverse :: splitRunsAux seps cs [] true
    else splitRunsAux seps cs (c :: cur) false

def splitRuns (seps : List Char) (s : String) : List String :=
  (splitRunsAux seps s.data [] false).map (fun w => ⟨w⟩)

/-- Python `str.split('\n')`-style single-character split keeping empty pieces. -/
def splitCharAux (sep : Char) : List Char → List Char → List (List Char)
  | [], cur => [cur.reverse]
  | c :: cs, cur =>
    if c = sep then cur.reverse :: splitCharAux sep cs []
    else splitCharAux sep cs (c :: cur)

def splitChar (sep : Char) (s : String) : List String :=
  (splitCharAux sep s.data []).map (fun w => ⟨w⟩)

/-- `re.split(r'(?<=[.!?])\s+', text)`: a separator is a maximal whitespace run
immediately preceded by `.`, `!` or `?`.  `cur` is the current piece reversed,
so `cur.head?` is the previously consumed character; `inSep` means we are
skipping the rest of a whitespace run. -/
def splitSentAux : List Char → List Char → Bool → List (List Char)
  | [], cur, _ => [cur.reverse]
  | c :: cs, cur, inSep =>
    if inSep then
      if pyIsSpace c then splitSentAux cs [] true
      else splitSentAux cs [c] false
    else if pyIsSpace c ∧ (cur.head? = some '.' ∨ cur.head? = some '!' ∨ cur.head? = some '?') then
      cur.reverse :: splitSentAux cs [] true
    else splitSentAux cs (c :: cur) false

/-- Sentence splitting used by the chunker (`app.py` line 49). -/
def splitSentText (text : String) : List String :=
  (splitSentAux text.data [] false).map (fun w => ⟨w⟩)

/-- Python `' '.join`. -/
def joinSp : List String → String
  | [] => ""
  | [s] => s
  | s :: rest => s ++ " " ++ joinSp rest

/-! ## MD5 (`hashlib.md5(...).hexdigest()`), on `Nat` mod 2^32 -/

def md5K : List Nat :=
  [0xd76aa478, 0xe8c7b756, 0x242070db, 0xc1bdceee,
   0xf57c0faf, 0x4787c62a, 0xa8304613, 0xfd469501,
   0x698098d8, 0x8b44f7af, 0xffff5bb1, 0x895cd7be,
   0x6b901122, 0xfd987193, 0xa679438e, 0x49b40821,
   0xf61e2562, 0xc040b340, 0x265e5a51, 0xe9b6c7aa,
   0xd62f105d, 0x02441453, 0xd8a1e681, 0xe7d3fbc8,
   0x21e1cde6, 0xc33707d6, 0xf4d50d87, 0x455a14ed,
   0xa9e3e905, 0xfcefa3f8, 0x676f02d9, 0x8d2a4c8a,
   0xfffa3942, 0x8771f681, 0x6d9d6122, 0xfde5380c,
   0xa4beea44, 0x4bdecfa9, 0xf6bb4b60, 0xbebfbc70,
   0x289b7ec6, 0xeaa127fa, 0xd4ef3085, 0x04881d05,
   0xd9d4d039, 0xe6db99e5, 0x1fa27cf8, 0xc4ac5665,
   0xf4292244, 0x432aff97, 0xab9423a7, 0xfc93a039,
   0x655b59c3, 0x8f0ccc92, 0xffeff47d, 0x85845dd1,
   0x6fa87e4f, 0xfe2ce6e0, 0xa3014314, 0x4e0811a1,
   0xf7537e82, 0xbd3af235, 0x2ad7d2bb, 0xeb86d391]

def md5S : List Nat :=
  [7, 12, 17, 22, 7, 12, 17, 22, 7, 12, 17, 22, 7, 12, 17, 22,
   5, 9, 14, 20, 5, 9, 14, 20, 5, 9, 14, 20, 5, 9, 14, 20,
   4, 11, 16, 23, 4, 11, 16, 23, 4, 11, 16, 23, 4, 11, 16, 23,
   6, 10, 15, 21, 6, 10, 15, 21, 6, 10, 15, 21, 6, 10, 15, 21]

def u32 (x : Nat) : Nat := x % 4294967296

def rotl32 (x n : Nat) : Nat := u32 ((x <<< n) ||| (x >>> (32 - n)))

def not32 (x : Nat) : Nat := x ^^^ 4294967295

/-- UTF-8 encoding of one character (Python `str.encode()`). -/
def utf8Char (c : Char) : List Nat :=
  let n := c.toNat
  if n < 128 then [n]
  else if n < 2048 then [192 + n / 64, 128 + n % 64]
  else if n < 65536 then [224 + n / 4096, 128 + n / 64 % 64, 128 + n % 64]
  else [240 + n / 262144, 128 + n / 4096 % 64, 128 + n / 64 % 64, 128 + n % 64]

def utf8Bytes (s : String) : List Nat := s.data.flatMap utf8Char

/-- Little-endian byte list of length `k` for `n`. -/
def leBytes : Nat → Nat → List Nat
  | 0, _ => []
  | k + 1, n => n % 256 :: leBytes k (n / 256)

def md5Pad (msg : List Nat) : List Nat :=
  let len := msg.length
  let z := (55 + 64 - len % 64) % 64
  msg ++ [128] ++ List.replicate z 0 ++ leBytes 8 (len * 8 % 18446744073709551616)

/-- Split a byte list into 64-byte blocks (fuel-driven so the kernel can run it). -/
def md5Blocks : Nat → List Nat → List (List Nat)
  | 0, _ => []
  | _, [] => []
  | fuel + 1, bs => bs.take 64 :: md5Blocks fuel (bs.drop 64)

/-- Assemble little-endian 32-bit words from bytes. -/
def md5Words : List Nat → List Nat
  | b0 :: b1 :: b2 :: b3 :: rest =>
      (b0 + 256 * b1 + 65536 * b2 + 16777216 * b3) :: md5Words rest
  | _ => []

def md5Round (w : List Nat) (st : Nat × Nat × Nat × Nat) (i : Nat) : Nat × Nat × Nat × Nat :=
  let a := st.1; let b := st.2.1; let c := st.2.2.1; let d := st.2.2.2
  let fg : Nat × Nat :=
    if i < 16 then ((b &&& c) ||| (not32 b &&& d), i)
    else if i < 32 then ((d &&& b) ||| (not32 d &&& c), (5 * i + 1) % 16)
    else if i < 48 then (b ^^^ c ^^^ d, (3 * i + 5) % 16)
    else (c ^^^ (b ||| not32 d), 7 * i % 16)
  let tmp := u32 (a + fg.1 + md5K.getD i 0 + w.getD fg.2 0)
  (d, u32 (b + rotl32 tmp (md5S.getD i 0)), b, c)

def md5Block (st : Nat × Nat × Nat × Nat) (block : List Nat) : Nat × Nat × Nat × Nat :=
  let w := md5Words block
  let r := List.foldl (md5Round w) st (List.range 64)
  (u32 (st.1 + r.1), u32 (st.2.1 + r.2.1), u32 (st.2.2.1 + r.2.2.1), u32 (st.2.2.2 + r.2.2.2))

def hexDigit (n : Nat) : Char := if n < 10 then Char.ofNat (48 + n) else Char.ofNat (87 + n)

def byteHex (b : Nat) : List Char := [hexDigit (b / 16), hexDigit (b % 16)]

/-- `hashlib.md5(bytes).hexdigest()` (verified against reference digests). -/
def md5HexOfBytes (msg : List Nat) : String :=
  let padded := md5Pad msg
  let st := List.foldl md5Block (0x67452301, 0xefcdab89, 0x98badcfe, 0x10325476)
              (md5Blocks padded.length padded)
  ⟨(leBytes 4 st.1 ++ leBytes 4 st.2.1 ++ leBytes 4 st.2.2.1 ++ leBytes 4 st.2.2.2).flatMap byteHex⟩

/-- `hashlib.md5(text.encode()).hexdigest()`. -/
def md5hex (text : String) : String := md5HexOfBytes (utf8Bytes text)

/-- First `n` characters of a string (Python slice `[:n]`). -/
def strTake (n : Nat) (s : String) : String := ⟨s.data.take n⟩

/-! ## difflib.SequenceMatcher ratio

`SequenceMatcher(None, a, b).ratio()` equals `2*M/(len a + len b)` where `M` is
the total size of the matching blocks found by recursive longest-contiguous-match
(maximal size; ties broken by least start in `a`, then least start in `b`).
The autojunk heuristic (active only when `len b ≥ 200`) is not modelled. -/

/-- Length of the common run at the heads of two lists. -/
def commonRun : List Char → List Char → Nat
  | x :: xs, y :: ys => if x = y then commonRun xs ys + 1 else 0
  | _, _ => 0

/-- Longest matching block `(i, j, size)` between `a` and `b`; among maximal
blocks the one with the least `i`, then the least `j` (difflib's tie-break). -/
def longestMatchBlock (a b : List Char) : Nat × Nat × Nat :=
  List.foldl
    (fun best i =>
      List.foldl
        (fun best j =>
          let k := commonRun (a.drop i) (b.drop j)
          if best.2.2 < k then (i, j, k) else best)
        best (List.range b.length))
    (0, 0, 0) (List.range a.length)

/-- Total matched size over difflib's recursive matching-block decomposition. -/
def matchSumAux : Nat → List Char → List Char → Nat
  | 0, _, _ => 0
  | fuel + 1, a, b =>
    let ijk := longestMatchBlock a b
    let i := ijk.1; let j := ijk.2.1; let k := ijk.2.2
    if k = 0 then 0
    else k + matchSumAux fuel (a.take i) (b.take j)
           + matchSumAux fuel (a.drop (i + k)) (b.drop (j + k))

def matchSum (a b : List Char) : Nat := matchSumAux (a.length + b.length + 1) a b

/-- `SequenceMatcher(None, a, b).ratio() > 0.7`, decided exactly on rationals:
`2M/T > 7/10 ↔ 20M > 7T`; difflib defines the ratio of two empty strings as 1.0. -/
def ratioGt07 (a b : List Char) : Bool :=
  let T := a.length + b.length
  if T = 0 then true else decide (7 * T < 20 * matchSum a b)

/-! ## Chunker: `AdvancedHallucinationReducer.chunk_document_smart` (app.py 43–92) -/

/-- `len(s.split())` — word count of a sentence. -/
def wc (s : String) : Nat := (pySplitL s.data).length

/-- `sum(len(s.split()) for s in l)`. -/
def wcL (l : List String) : Nat := (l.map wc).sum

/-- The overlap-seeding loop (app.py 67–75): walk the closed buffer from the
end, prepending sentences while the accumulated word count is `< overlap`. -/
def overlapSuffixGo (overlap : Nat) : List String → List String → Nat → List String
  | [], acc, _ => acc
  | s :: rest, acc, w =>
    if w < overlap then overlapSuffixGo overlap rest (s :: acc) (w + wc s)
    else acc

/-- The overlap seed kept from a closed chunk buffer (`overlap_sentences`). -/
def overlap_suffix (current_chunk : List String) (overlap : Nat) : List String :=
  overlapSuffixGo overlap current_chunk.reverse [] 0

structure Chunk where
  id : String
  text : String
  sentence_range : Nat × Nat
  word_count : Nat
deriving DecidableEq, Repr

/-- Chunk constructor used at both append sites (app.py 60–65 and 85–90):
`id = hashlib.md5(chunk_text.encode()).hexdigest()[:8]`. -/
def mkChunk (text : String) (rng : Nat × Nat) (word_count : Nat) : Chunk :=
  { id := strTake 8 (md5hex text), text := text, sentence_range := rng, word_count := word_count }

/-- Main chunking loop over the enumerated sentences (app.py 54–90). -/
def chunkLoop (chunk_size overlap nSent : Nat) :
    List (Nat × String) → List String → Nat → List Chunk → List Chunk
  | [], current, curLen, acc =>
    if current = [] then acc
    else acc ++ [mkChunk (joinSp current) (acc.length, nSent) curLen]
  | (i, sentence) :: rest, current, curLen, acc =>
    let sl := wc sentence
    if chunk_size < curLen + sl ∧ current ≠ [] then
      let acc' := acc ++ [mkChunk (joinSp current) (acc.length, i) curLen]
      let seeded := overlap_suffix current overlap ++ [sentence]
      chunkLoop chunk_size overlap nSent rest seeded (wcL seeded) acc'
    else
      chunkLoop chunk_size overlap nSent rest (current ++ [sentence]) (curLen + sl) acc

/-- `chunk_document_smart(text, chunk_size=800, overlap=100)` (app.py 43–92).
The Python call sites use the defaults; parameters are kept explicit here. -/
def chunk_document_smart (text : String) (chunk_size overlap : Nat) : List Chunk :=
  let sentences := splitSentText text
  chunkLoop chunk_size overlap sentences.length sentences.enum [] 0 []

/-! ## Claim extraction and verification (app.py 214–254) -/

/-- Order-preserving first occurrences — Python `set`/`Counter` key order model. -/
def firstOccGo : List String → List String → List String
  | [], _ => []
  | x :: xs, seen => if x ∈ seen then firstOccGo xs seen else x :: firstOccGo xs (x :: seen)

def firstOccurrences (l : List String) : List String := firstOccGo l []

/-- `_verify_claim_in_document(claim, document)` (app.py 228–254).
The float comparisons are decided exactly: `overlap_ratio < 0.5 ↔ 2·|∩| < |claim set|`. -/
def verify_claim_in_document (claim document : String) : Bool :=
  let claim_lower := pyLower claim
  let doc_lower := pyLower document
  let words := pySplit claim_lower
  if words.length < 3 then pyIn claim_lower doc_lower
  else
    let claim_words := firstOccurrences words
    let doc_words := pySplit doc_lower
    let inter := claim_words.filter (fun w => decide (w ∈ doc_words))
    if 2 * inter.length < claim_words.length then false
    else
      let doc_sentences := splitRuns ['.', '!', '?', '\n'] doc_lower
      doc_sentences.any (fun sentence => ratioGt07 claim_lower.data (pyStrip sentence).data)

/-- `_extract_claims(text)` (app.py 214–226). -/
def extract_claims (text : String) : List String :=
  let sentences := splitRuns ['.', '!', '?'] text
  sentences.filterMap (fun s0 =>
    let s := pyStrip s0
    if 20 < s.length
       ∧ ¬ (["answer:", "response:", "note:", "certainty:", "evidence:"].any
              (fun p => pyStartsWith (pyLower s) p))
       ∧ pyLower s ∉ (["certain", "likely", "uncertain"] : List String)
    then some s else none)

/-- The consensus computation inside `_aggregate_ensemble_responses`
(app.py 180–188): `Counter` over all claims, keep counts ≥ 2, in first-occurrence
order. -/
def consensus_claims_of (responses : List String) : List String :=
  let all_claims := responses.flatMap extract_claims
  (firstOccurrences all_claims).filter (fun c => decide (2 ≤ all_claims.count c))

structure EnsembleResult where
  consensus_answer : String
  confidence : ℚ
  agreement_score : ℚ
  all_responses : List String
  verified_claims : List String
deriving DecidableEq, Repr

/-- `_aggregate_ensemble_responses(responses, document)` (app.py 177–212).
Python float divisions of nonnegative integers are modelled exactly by `mkRat`. -/
def aggregate_ensemble_responses (responses : List String) (document : String) : EnsembleResult :=
  let all_claims := responses.flatMap extract_claims
  let consensus_claims := consensus_claims_of responses
  let verified_claims := consensus_claims.filter (fun c => verify_claim_in_document c document)
  if responses = [] then
    { consensus_answer := "Unable to generate response", confidence := 0,
      agreement_score := 0, all_responses := [], verified_claims := [] }
  else
    { consensus_answer := if verified_claims ≠ [] then joinSp verified_claims
                          else responses.headD "",
      confidence := if consensus_claims ≠ [] then
                      mkRat verified_claims.length (max consensus_claims.length 1)
                    else mkRat 1 2,
      agreement_score := if all_claims ≠ [] then
                           mkRat consensus_claims.length (max all_claims.length 1)
                         else 0,
      all_responses := responses, verified_claims := verified_claims }

/-! ## LLM client abstraction and prompts -/

structure CompletionRequest where
  model : String
  prompt : String
  max_tokens : Nat
  temperature : ℚ
  top_p : Option ℚ := none
  repetition_penalty : Option ℚ := none
deriving DecidableEq, Repr

/-- The LLM collaborator: `together.Complete.create` returning the completion
text `response['choices'][0]['text']`, or `.error msg` for a raised exception. -/
abbrev Llm := CompletionRequest → Except String String

def primary_model : String := "meta-llama/Meta-Llama-3.1-70B-Instruct-Turbo"

def verification_model : String := "meta-llama/Meta-Llama-3.1-8B-Instruct-Turbo"

/-- Template 1: strict citation (app.py 105–119). -/
def template1 : String :=
  "You are a precise document analyzer. Extract information following these STRICT rules:\n\n1. Quote EXACTLY from the document - no paraphrasing\n2. If unsure, state \"Uncertain\" and explain why\n3. Never infer beyond what\x27s explicitly written\n\nDocument:\n{document}\n\nQuestion: {query}\n\nProvide:\n- Direct Answer: [answer with exact quotes in brackets]\n- Evidence Quotes: [list all relevant quotes]\n- Certainty: [Certain/Likely/Uncertain]"

/-- Template 2: chain of thought (app.py 122–134). -/
def template2 : String :=
  "Analyze this document step-by-step:\n\nDocument:\n{document}\n\nQuestion: {query}\n\nThink through this:\n1. What facts in the document relate to this question?\n2. What do these facts directly state?\n3. What is my answer based ONLY on these facts?\n\nAnswer:"

/-- Template 3: negative instruction (app.py 137–150). -/
def template3 : String :=
  "Answer the question using the document. CRITICAL RULES:\n\nDO NOT add information not in the document\nDO NOT make assumptions\nDO NOT paraphrase - use exact quotes\nDO cite specific text\nDO express uncertainty when appropriate\n\nDocument:\n{document}\n\nQuestion: {query}\n\nResponse:"

def prompt_templates : List String := [template1, template2, template3]

/-- `template.format(document=..., query=...)`: substitute each `{document}` /
`{query}` field of the template once (field markers inside the substituted
values are not re-expanded, matching `str.format`).  Fuel-driven on the
template length so the kernel can evaluate it. -/
def formatDQAux (doc q : List Char) : Nat → List Char → List Char
  | 0, _ => []
  | _, [] => []
  | fuel + 1, c :: cs =>
    if ("{document}" : String).data.isPrefixOf (c :: cs) then
      doc ++ formatDQAux doc q fuel ((c :: cs).drop 10)
    else if ("{query}" : String).data.isPrefixOf (c :: cs) then
      q ++ formatDQAux doc q fuel ((c :: cs).drop 7)
    else c :: formatDQAux doc q fuel cs

def formatDQ (template document query : String) : String :=
  ⟨formatDQAux document.data query.data template.data.length template.data⟩

/-- Per-pass temperatures `[0.05, 0.25, 0.15]` (app.py 158). -/
def temperatures : List ℚ := [mkRat 1 20, mkRat 1 4, mkRat 3 20]

/-- The completion requests issued by `ensemble_extraction` (app.py 153–166):
one per template in `prompt_templates[:num_passes]`, primary model for pass 0,
verification model otherwise. -/
def ensemble_requests (document query : String) (num_passes : Nat) : List CompletionRequest :=
  ((prompt_templates.take num_passes).enum).map (fun p =>
    { model := if p.1 = 0 then primary_model else verification_model,
      prompt := formatDQ p.2 document query,
      max_tokens := 600,
      temperature := temperatures.getD p.1 0,
      top_p := some (mkRat 9 10),
      repetition_penalty := some (mkRat 6 5) })

/-- The collected pass responses: a failing pass is skipped (app.py 169–172). -/
def ensemble_responses (llm : Llm) (document query : String) (num_passes : Nat) : List String :=
  (ensemble_requests document query num_passes).filterMap (fun r => (llm r).toOption)

/-- `ensemble_extraction(document, query, num_passes)` (app.py 94–175). -/
def ensemble_extraction (llm : Llm) (document query : String) (num_passes : Nat) : EnsembleResult :=
  aggregate_ensemble_responses (ensemble_responses llm document query num_passes) document

/-! ## Fact-extraction validation (app.py 256–338) -/

structure FactResult where
  extracted_facts : String
  answer : String
  validation_score : ℚ
  reliable : Bool
deriving DecidableEq, Repr

def fact_prompt1 (document query : String) : String :=
  "Extract ONLY the facts from this document that relate to the question.\nList each fact as a separate bullet point with the exact quote.\n\nDocument:\n" ++ document ++ "\n\nQuestion: " ++ query ++ "\n\nExtracted Facts (with quotes):"

def fact_prompt2 (extracted_facts query : String) : String :=
  "Using ONLY these extracted facts, answer the question.\nDo not add any information not in the facts below.\n\nExtracted Facts:\n" ++ extracted_facts ++ "\n\nQuestion: " ++ query ++ "\n\nAnswer (reference fact numbers):"

def fact_request1 (document query : String) : CompletionRequest :=
  { model := primary_model, prompt := fact_prompt1 document query,
    max_tokens := 500, temperature := mkRat 1 20 }

def fact_request2 (extracted_facts query : String) : CompletionRequest :=
  { model := primary_model, prompt := fact_prompt2 extracted_facts query,
    max_tokens := 400, temperature := mkRat 1 10 }

/-- `_cross_validate(answer, document)` (app.py 328–338): the fraction of the
answer's sentences of stripped length > 10 that are support-checked. -/
def cross_validate (answer document : String) : ℚ :=
  let answer_sentences := splitRuns ['.', '!', '?'] answer
  let eligible := answer_sentences.filter (fun s => decide (10 < (pyStrip s).length))
  let supported := eligible.filter (fun s => verify_claim_in_document s document)
  mkRat supported.length (max eligible.length 1)

/-- `fact_extraction_validation(document, query)` (app.py 256–326): stage-1 and
stage-2 call failures each short-circuit with `reliable=False`; otherwise
`reliable = validation_score > 0.7`. -/
def fact_extraction_validation (llm : Llm) (document query : String) : FactResult :=
  match llm (fact_request1 document query) with
  | .error e =>
    { extracted_facts := "Error extracting facts: " ++ e,
      answer := "Unable to process request", validation_score := 0, reliable := false }
  | .ok extracted_facts =>
    match llm (fact_request2 extracted_facts query) with
    | .error e =>
      { extracted_facts := extracted_facts,
        answer := "Error generating answer: " ++ e, validation_score := 0, reliable := false }
    | .ok answer =>
      let validation_score := cross_validate answer document
      { extracted_facts := extracted_facts, answer := answer,
        validation_score := validation_score,
        reliable := decide (mkRat 7 10 < validation_score) }

/-! ## Adversarial validation (app.py 521–562) -/

structure ValidationResult where
  problems_found : String
  problem_count : Nat
  reliability_score : ℚ
  is_reliable : Bool
deriving DecidableEq, Repr

def adversarial_prompt (document query answer : String) : String :=
  "You are a critical fact-checker. Your job is to find ANY errors, hallucinations, or unsupported claims in this answer.\n\nDocument:\n" ++ document ++ "\n\nQuestion: " ++ query ++ "\n\nAnswer to check:\n" ++ answer ++ "\n\nList EVERY problem you find:\n- Incorrect facts\n- Information not in document\n- Misinterpretations\n- Unsupported claims\n\nProblems found:"

def adversarial_request (document query answer : String) : CompletionRequest :=
  { model := verification_model, prompt := adversarial_prompt document query answer,
    max_tokens := 400, temperature := mkRat 1 5 }

/-- `problem_lines` (app.py 555): the non-blank lines of the critic output not
starting (after strip) with `'None'` — note the capital N, case-sensitive. -/
def problem_lines (problems : String) : List String :=
  (splitChar '\n' problems).filter
    (fun l => pyStrip l ≠ "" ∧ ¬ pyStartsWith (pyStrip l) "None")

/-- The scoring part of `adversarial_validation` (app.py 555–562).
`max(0, 1 - n*0.2)` is represented by the equal exact rational
`max 0 ((5 - n)/5)` so that the kernel can compute it. -/
def adversarial_score (problems : String) : ValidationResult :=
  let n := (problem_lines problems).length
  { problems_found := problems, problem_count := n,
    reliability_score := max 0 (mkRat (5 - (n : Int)) 5),
    is_reliable := decide (n < 2) }

/-- `adversarial_validation(document, query, answer)` (app.py 521–562): the
completion call is *not* wrapped in try/except, so a call failure propagates. -/
def adversarial_validation (llm : Llm) (document query answer : String) :
    Except String ValidationResult :=
  (llm (adversarial_request document query answer)).map adversarial_score

/-! ## Orchestrator: `/api/analyze-advanced` (app.py 569–621) -/

structure AnalyzeOk where
  answer : String
  confidence : ℚ
  reliability_score : ℚ
  validation : ValidationResult
  fact_validation : FactResult
  is_reliable : Bool
deriving DecidableEq, Repr

/-- Outcome of the endpoint: a success payload, a 400 input rejection, or the
500 response produced by the outer `except` when a stage raises. -/
inductive AnalyzeOutcome where
  | ok : AnalyzeOk → AnalyzeOutcome
  | clientError : String → AnalyzeOutcome
  | serverError : String → AnalyzeOutcome
deriving DecidableEq, Repr

/-- `analyze_advanced()` (app.py 569–621): validate inputs, run ensemble
extraction, fact validation and adversarial validation, then reconcile.
An exception in the adversarial call reaches the outer handler (`serverError`). -/
def analyze_advanced (llm : Llm) (document0 query0 : String) : AnalyzeOutcome :=
  let document := pyStrip document0
  let query := pyStrip query0
  if document = "" ∨ query = "" then .clientError "Document and query required"
  else if 200000 < document.length then
    .clientError "Document too large (max 200,000 characters)"
  else if 1000 < query.length then .clientError "Query too long (max 1,000 characters)"
  else
    let ensemble_result := ensemble_extraction llm document query 3
    let fact_result := fact_extraction_validation llm document query
    match adversarial_validation llm document query ensemble_result.consensus_answer with
    | .error e => .serverError e
    | .ok validation =>
      let final_answer := if validation.is_reliable then ensemble_result.consensus_answer
                          else fact_result.answer
      .ok { answer := final_answer,
            confidence := ensemble_result.confidence,
            reliability_score := validation.reliability_score,
            validation := validation,
            fact_validation := fact_result,
            is_reliable := validation.is_reliable && fact_result.reliable }

/-! ## Diversified retrieval: `retrieve_documents` (app2.py 440–544)

Embedding and vector-store queries are external collaborators; the
diversification is modelled from the merged candidate list (`matches`,
app2.py line 491) onward.  Scores are modelled as integers (only their
ordering matters to the algorithm). -/

structure RMatch where
  source : String
  score : Int
deriving DecidableEq, Repr

/-- One step of the `by_source` grouping (app2.py 494–499): dict insertion
order, appending within a group. -/
def addMatch (m : RMatch) : List (String × List RMatch) → List (String × List RMatch)
  | [] => [(m.source, [m])]
  | g :: gs => if g.1 = m.source then (g.1, g.2 ++ [m]) :: gs else g :: addMatch m gs

def groupBySource (ms : List RMatch) : List (String × List RMatch) :=
  List.foldl (fun acc m => addMatch m acc) [] ms

/-- Stable insertion for descending-score sort (`sort(key=score, reverse=True)`):
`m` goes before the first element of strictly smaller score. -/
def insertDesc (m : RMatch) : List RMatch → List RMatch
  | [] => [m]
  | x :: xs => if x.score < m.score then m :: x :: xs else x :: insertDesc m xs

def sortDesc (l : List RMatch) : List RMatch :=
  List.foldl (fun acc m => insertDesc m acc) [] l

/-- The diversification of `retrieve_documents` (app2.py 503–526) applied to
the candidate list `matches`: first pass takes `max(1, top_k // S)` per source,
a second pass fills `top_k - cps*S` remaining slots from the highest-scoring
leftovers (skipped when that difference is ≤ 0, as in the Python `> 0` guard),
then sort by score and truncate to `top_k`. -/
def diversify_matches (ms : List RMatch) (top_k : Nat) : List RMatch :=
  let by_source := groupBySource ms
  let diverse :=
    if 0 < by_source.length then
      let chunks_per_source := max 1 (top_k / by_source.length)
      let remaining_slots := top_k - chunks_per_source * by_source.length
      let first_pass := by_source.flatMap (fun g => g.2.take chunks_per_source)
      if 0 < remaining_slots then
        let all_remaining := sortDesc (by_source.flatMap (fun g => g.2.drop chunks_per_source))
        first_pass ++ all_remaining.take remaining_slots
      else first_pass
    else []
  (sortDesc diverse).take top_k

/-- The distinct source documents of a candidate list, in first-occurrence order. -/
def sourcesOf (l : List RMatch) : List String := firstOccurrences (l.map RMatch.source)

/-! ## Auxiliary definitions used by the verification statements -/

/-- Modelled from the spec's claim wording for the adversarial problem count:
"the number of non-empty lines excluding every line that begins with `none`"
(lower-case) — compared against the implementation, which tests for `'None'`. -/
def claim_problem_count (problems : String) : Nat :=
  ((splitChar '\n' problems).filter
    (fun l => pyStrip l ≠ "" ∧ ¬ pyStartsWith (pyStrip l) "none")).length

/-- A buffer shape that the chunking loop may hold right after it was (re)seeded:
either a single sentence (the very first one of a chunk), or an overlap seed of
earlier sentences followed by the sentence that triggered the previous closure. -/
def InitShape (allS : List String) (ov : Nat) (current : List String) : Prop :=
  (∃ s, s ∈ allS ∧ current = [s]) ∨
  (∃ pre s, (∀ t ∈ pre, t ∈ allS) ∧ s ∈ allS ∧ current = overlap_suffix pre ov ++ [s])

/-- Word-count discipline of a produced chunk: within the `chunk_size` budget,
or a single over-long sentence kept whole, or an overlap seed plus the single
sentence that triggered the previous chunk's closure. -/
def GoodChunk (allS : List String) (chunk_size ov : Nat) (c : Chunk) : Prop :=
  wc c.text ≤ chunk_size ∨
  (∃ s, s ∈ allS ∧ c.text = s ∧ chunk_size < wc s) ∨
  (∃ pre s, (∀ t ∈ pre, t ∈ allS) ∧ s ∈ allS ∧
    c.text = joinSp (overlap_suffix pre ov ++ [s]))

/-- Test oracle: every completion call succeeds with the text `"ok"`. -/
def okLlm : Llm := fun _ => .ok "ok"

/-- Test oracle: the adversarial-validation call (whose prompt starts with the
critic preamble) raises; every other call succeeds. -/
def critLlm : Llm := fun r =>
  if pyStartsWith r.prompt "You are a critical fact-checker" then .error "boom"
  else .ok "ok"

/-- Test oracle: the stage-1 fact-extraction call raises; every other call
succeeds. -/
def factFailLlm : Llm := fun r =>
  if pyStartsWith r.prompt "Extract ONLY the facts" then .error "down"
  else .ok "ok"

deriving instance DecidableEq for Except

/-! ## General lemmas about the string and list helpers -/

theorem str_data_append (a b : String) : (a ++ b).data = a.data ++ b.data := by
  cases a; cases b; rfl

theorem mem_firstOccGo {x : String} :
    ∀ (l seen : List String), x ∈ firstOccGo l seen ↔ x ∈ l ∧ x ∉ seen := by
  intro l
  induction l with
  | nil => intro seen; simp [firstOccGo]
  | cons y ys ih =>
    intro seen
    by_cases hy : y ∈ seen
    · simp only [firstOccGo, if_pos hy, ih, List.mem_cons]
      constructor
      · rintro ⟨h1, h2⟩; exact ⟨Or.inr h1, h2⟩
      · rintro ⟨h1 | h1, h2⟩
        · exact absurd (h1 ▸ hy) h2
        · exact ⟨h1, h2⟩
    · simp only [firstOccGo, if_neg hy, List.mem_cons, ih]
      by_cases hxy : x = y
      · subst hxy; simp [hy]
      · simp [hxy]

theorem mem_firstOccurrences {x : String} {l : List String} :
    x ∈ firstOccurrences l ↔ x ∈ l := by
  unfold firstOccurrences
  rw [mem_firstOccGo]
  simp

theorem firstOccGo_length_le : ∀ (l seen : List String), (firstOccGo l seen).length ≤ l.length := by
  intro l
  induction l with
  | nil => intro seen; simp [firstOccGo]
  | cons y ys ih =>
    intro seen
    simp only [firstOccGo]
    by_cases hy : y ∈ seen
    · rw [if_pos hy]
      exact le_trans (ih seen) (Nat.le_succ _)
    · rw [if_neg hy]
      simpa using Nat.succ_le_succ (ih (y :: seen))

theorem firstOccurrences_length_le (l : List String) :
    (firstOccurrences l).length ≤ l.length := firstOccGo_length_le l []

theorem pyInL_iff_contiguous : ∀ (sub l : List Char), pyInL sub l = true ↔ sub <:+: l := by
  intro sub l
  induction l with
  | nil =>
    simp only [pyInL, decide_eq_true_eq]
    constructor
    · rintro rfl; exact List.infix_refl _
    · intro h; exact List.eq_nil_of_infix_nil h
  | cons c cs ih =>
    simp only [pyInL, Bool.or_eq_true, List.isPrefixOf_iff_prefix, ih, List.infix_cons_iff]

theorem wcL_append (a b : List String) : wcL (a ++ b) = wcL a + wcL b := by
  simp [wcL]

/-- Splitting at an explicit space boundary splits the word accumulation. -/
theorem pySplitAux_append_space (ys : List Char) :
    ∀ (xs cur : List Char), pySplitAux (xs ++ ' ' :: ys) cur =
      pySplitAux xs cur ++ pySplitAux ys [] := by
  intro xs
  induction xs with
  | nil =>
    intro cur
    simp only [List.nil_append, pySplitAux]
    have hsp : pyIsSpace ' ' = true := by decide
    rw [if_pos hsp]
    by_cases hc : cur = []
    · rw [if_pos hc, if_pos hc]; simp
    · rw [if_neg hc, if_neg hc]; simp
  | cons x xs ih =>
    intro cur
    simp only [List.cons_append, pySplitAux, List.append_eq]
    by_cases hx : pyIsSpace x
    · rw [if_pos hx, if_pos hx]
      by_cases hc : cur = []
      · rw [if_pos hc, if_pos hc, ih]
      · rw [if_neg hc, if_neg hc, ih]; simp
    · rw [if_neg hx, if_neg hx, ih]

/-- The word count of `' '.join(l)` is the sum of the word counts. -/
theorem wc_joinSp : ∀ (l : List String), wc (joinSp l) = wcL l := by
  intro l
  induction l with
  | nil => rfl
  | cons s rest ih =>
    cases rest with
    | nil => simp [joinSp, wcL, wc]
    | cons t ts =>
      have hj : joinSp (s :: t :: ts) = s ++ " " ++ joinSp (t :: ts) := rfl
      have hsp : (" " : String).data = [' '] := rfl
      have hdata : (s ++ " " ++ joinSp (t :: ts)).data =
          s.data ++ ' ' :: (joinSp (t :: ts)).data := by
        rw [str_data_append, str_data_append, hsp, List.append_assoc]
        rfl
      rw [hj]
      show (pySplitL (s ++ " " ++ joinSp (t :: ts)).data).length = wcL (s :: t :: ts)
      rw [hdata]
      unfold pySplitL
      rw [pySplitAux_append_space]
      have : wcL (s :: t :: ts) = wc s + wcL (t :: ts) := by simp [wcL]
      rw [this, ← ih, List.length_append]
      rfl

theorem snd_mem_of_mem_enum {α : Type} {p : Nat × α} {l : List α} (hp : p ∈ l.enum) :
    p.2 ∈ l := by
  obtain ⟨i, x⟩ := p
  obtain ⟨-, hlt, hx⟩ := List.mem_enumFrom hp
  simp only [Nat.zero_add, Nat.sub_zero] at hlt hx
  exact hx ▸ List.getElem_mem hlt

/-! ## Lemmas about the overlap seeding loop -/

theorem overlapSuffixGo_suffix (ov : Nat) :
    ∀ (l acc : List String) (w : Nat), overlapSuffixGo ov l acc w <:+ l.reverse ++ acc := by
  intro l
  induction l with
  | nil => intro acc w; simp [overlapSuffixGo]
  | cons s rest ih =>
    intro acc w
    simp only [overlapSuffixGo]
    by_cases hw : w < ov
    · rw [if_pos hw]
      have := ih (s :: acc) (w + wc s)
      simpa [List.append_assoc] using this
    · rw [if_neg hw]
      exact (List.suffix_append _ _)

theorem overlap_suffix_is_suffix (buf : List String) (ov : Nat) :
    overlap_suffix buf ov <:+ buf := by
  have := overlapSuffixGo_suffix ov buf.reverse [] 0
  simpa [overlap_suffix] using this

theorem overlapSuffixGo_tail_lt (ov : Nat) :
    ∀ (l acc : List String) (w : Nat), w = wcL acc →
      (acc ≠ [] → wcL acc.tail < ov) →
      (overlapSuffixGo ov l acc w ≠ [] → wcL (overlapSuffixGo ov l acc w).tail < ov) := by
  intro l
  induction l with
  | nil => intro acc w _ hacc; simpa [overlapSuffixGo] using hacc
  | cons s rest ih =>
    intro acc w hw hacc
    simp only [overlapSuffixGo]
    by_cases hlt : w < ov
    · rw [if_pos hlt]
      refine ih (s :: acc) (w + wc s) (by simp [wcL, hw]; omega) ?_
      intro _
      simpa [hw] using hlt
    · rw [if_neg hlt]
      exact hacc

theorem overlap_suffix_tail_lt (buf : List String) (ov : Nat)
    (h : overlap_suffix buf ov ≠ []) : wcL (overlap_suffix buf ov).tail < ov := by
  exact overlapSuffixGo_tail_lt ov buf.reverse [] 0 rfl (by simp) h

theorem overlapSuffixGo_full_or_ge (ov : Nat) :
    ∀ (l acc : List String) (w : Nat), w = wcL acc →
      overlapSuffixGo ov l acc w = l.reverse ++ acc ∨
        ov ≤ wcL (overlapSuffixGo ov l acc w) := by
  intro l
  induction l with
  | nil => intro acc w _; left; simp [overlapSuffixGo]
  | cons s rest ih =>
    intro acc w hw
    simp only [overlapSuffixGo]
    by_cases hlt : w < ov
    · rw [if_pos hlt]
      rcases ih (s :: acc) (w + wc s) (by simp [wcL, hw]; omega) with h | h
      · left; rw [h]; simp
      · right; exact h
    · rw [if_neg hlt]
      right; rw [← hw]; exact Nat.le_of_not_lt hlt

theorem overlap_suffix_proper_ge (buf : List String) (ov : Nat)
    (h : overlap_suffix buf ov ≠ buf) : ov ≤ wcL (overlap_suffix buf ov) := by
  rcases overlapSuffixGo_full_or_ge ov buf.reverse [] 0 rfl with hfull | hge
  · exfalso; apply h
    simpa [overlap_suffix] using hfull
  · exact hge

theorem mem_of_mem_overlap_suffix {t : String} {buf : List String} {ov : Nat}
    (h : t ∈ overlap_suffix buf ov) : t ∈ buf :=
  (overlap_suffix_is_suffix buf ov).subset h

/-! ## Chunk id lemmas (claim C9) -/

theorem chunkLoop_id (chunk_size ov n : Nat) :
    ∀ (pend : List (Nat × String)) (current : List String) (curLen : Nat) (acc : List Chunk),
      (∀ c ∈ acc, c.id = strTake 8 (md5hex c.text)) →
      ∀ c ∈ chunkLoop chunk_size ov n pend current curLen acc,
        c.id = strTake 8 (md5hex c.text) := by
  intro pend
  induction pend with
  | nil =>
    intro current curLen acc hacc c hc
    simp only [chunkLoop] at hc
    by_cases hcur : current = []
    · rw [if_pos hcur] at hc; exact hacc c hc
    · rw [if_neg hcur] at hc
      rcases List.mem_append.mp hc with h | h
      · exact hacc c h
      · simp only [List.mem_singleton] at h; subst h; rfl
  | cons p rest ih =>
    intro current curLen acc hacc c hc
    obtain ⟨i, sentence⟩ := p
    simp only [chunkLoop] at hc
    by_cases hcond : chunk_size < curLen + wc sentence ∧ current ≠ []
    · rw [if_pos hcond] at hc
      refine ih _ _ _ ?_ c hc
      intro c' hc'
      rcases List.mem_append.mp hc' with h | h
      · exact hacc c' h
      · simp only [List.mem_singleton] at h; subst h; rfl
    · rw [if_neg hcond] at hc
      exact ih _ _ _ hacc c hc

/-- Claim C9: chunking is deterministic — each produced chunk's `id` is a pure
function of its text, namely the first 8 hex characters of the MD5 digest of
the text; hence chunks with equal text (in particular, chunks of two runs on
the identical input) have equal ids. -/
theorem chunk_id_content_hash (text : String) (chunk_size ov : Nat) (c : Chunk)
    (hc : c ∈ chunk_document_smart text chunk_size ov) :
    c.id = strTake 8 (md5hex c.text) ∧
    ∀ (text' : String) (cs' ov' : Nat) (c' : Chunk),
      c' ∈ chunk_document_smart text' cs' ov' → c.text = c'.text → c.id = c'.id := by
  have key : ∀ (t : String) (a b : Nat) (d : Chunk), d ∈ chunk_document_smart t a b →
      d.id = strTake 8 (md5hex d.text) := by
    intro t a b d hd
    unfold chunk_document_smart at hd
    exact chunkLoop_id a b _ _ [] 0 [] (by simp) d hd
  refine ⟨key text chunk_size ov c hc, ?_⟩
  intro t' a' b' c' hc' htext
  rw [key text chunk_size ov c hc, key t' a' b' c' hc', htext]

set_option maxRecDepth 4000 in
/-- Witness for C9 at a concrete input. -/
theorem chunk_id_content_hash_witness :
    ((chunk_document_smart "Hi there." 800 100).headD (mkChunk "" (0, 0) 0)).id =
      strTake 8 (md5hex ((chunk_document_smart "Hi there." 800 100).headD
        (mkChunk "" (0, 0) 0)).text) :=
  (chunk_id_content_hash "Hi there." 800 100 _ (by decide)).1

/-- Claim C10: `ensemble_extraction` slices `prompt_templates[:num_passes]`, so a
`num_passes` larger than 3 issues the same (at most 3) completion requests and
returns the same result as `num_passes = 3`. -/
theorem ensemble_pass_cap (llm : Llm) (document query : String) (n : Nat) (h : 3 < n) :
    ensemble_requests document query n = ensemble_requests document query 3 ∧
    (ensemble_requests document query n).length ≤ 3 ∧
    ensemble_extraction llm document query n = ensemble_extraction llm document query 3 := by
  have hlen : prompt_templates.length = 3 := rfl
  have htake : prompt_templates.take n = prompt_templates.take 3 := by
    rw [List.take_of_length_le (by omega), List.take_of_length_le (by omega)]
  have hreq : ensemble_requests document query n = ensemble_requests document query 3 := by
    unfold ensemble_requests; rw [htake]
  refine ⟨hreq, ?_, ?_⟩
  · rw [hreq]
    simp [ensemble_requests, List.length_take, hlen]
  · unfold ensemble_extraction ensemble_responses
    rw [hreq]

/-- Witness for C10 at a concrete input. -/
theorem ensemble_pass_cap_witness :
    ensemble_extraction okLlm "Doc." "Q?" 4 = ensemble_extraction okLlm "Doc." "Q?" 3 :=
  (ensemble_pass_cap okLlm "Doc." "Q?" 4 (by decide)).2.2

/-! ## Consensus (claim C5) -/

/-- Counterexample to claim C5 as stated: with a single response that repeats
one long sentence twice, the claim occurs in only one distinct response, yet it
is counted as a consensus claim (the `Counter` counts total occurrences). -/
theorem consensus_single_response_counterexample :
    "It is raining heavily today ok" ∈
      consensus_claims_of ["It is raining heavily today ok. It is raining heavily today ok."] ∧
    (["It is raining heavily today ok. It is raining heavily today ok."].filter
      (fun r => decide ("It is raining heavily today ok" ∈ extract_claims r))).length = 1 := by
  decide

/-- Claim C5 (amended): a claim is a consensus claim iff it occurs at least
twice in total among the claims extracted from all responses (occurrences
within a single response count separately). -/
theorem consensus_iff_total_count (responses : List String) (c : String) :
    c ∈ consensus_claims_of responses ↔
      2 ≤ (responses.flatMap extract_claims).count c := by
  unfold consensus_claims_of
  simp only [List.mem_filter, mem_firstOccurrences, decide_eq_true_eq]
  constructor
  · rintro ⟨-, h⟩; exact h
  · intro h
    refine ⟨?_, h⟩
    have hpos : 0 < (responses.flatMap extract_claims).count c := by omega
    exact List.count_pos_iff.mp hpos

/-! ## Adversarial scoring (claim C8) -/

/-- Counterexample to claim C8 as stated: the implementation excludes lines
starting with capital `'None'`, not `"none"`; on the critic output `"none"` the
claim's count is 0 (score 1.0) but the code counts 1 problem (score 0.8). -/
theorem problem_lines_lowercase_none_counterexample :
    claim_problem_count "none" = 0 ∧
    (adversarial_score "none").problem_count = 1 ∧
    (adversarial_score "none").reliability_score < 1 := by
  refine ⟨by decide, by decide, by decide⟩

/-- Claim C8 (amended): `problemCount` is the number of non-empty lines of the
critic output that do not begin (after stripping) with `"None"` (capital N);
`reliabilityScore = max(0, 1 − 0.2·problemCount)` — equal to 1 at 0 problems, 0
from 5 problems on, never negative — and `isReliable ↔ problemCount < 2`. -/
theorem adversarial_scoring_properties (s : String) :
    (adversarial_score s).problem_count = (problem_lines s).length ∧
    (adversarial_score s).reliability_score =
      max 0 (1 - ((adversarial_score s).problem_count : ℚ) / 5) ∧
    ((adversarial_score s).is_reliable = true ↔ (adversarial_score s).problem_count < 2) ∧
    (0 : ℚ) ≤ (adversarial_score s).reliability_score ∧
    ((adversarial_score s).problem_count = 0 →
      (adversarial_score s).reliability_score = 1 ∧ (adversarial_score s).is_reliable = true) ∧
    (5 ≤ (adversarial_score s).problem_count → (adversarial_score s).reliability_score = 0) := by
  have hpc : (adversarial_score s).problem_count = (problem_lines s).length := rfl
  set n := (problem_lines s).length with hn
  have hrel : (adversarial_score s).reliability_score = max 0 (mkRat (5 - (n : Int)) 5) := rfl
  have hisr : (adversarial_score s).is_reliable = decide (n < 2) := rfl
  have hval : (mkRat (5 - (n : Int)) 5 : ℚ) = 1 - (n : ℚ) / 5 := by
    rw [Rat.mkRat_eq_div]
    push_cast
    ring
  refine ⟨hpc, ?_, ?_, ?_, ?_, ?_⟩
  · rw [hrel, hval, hpc]
  · rw [hisr, hpc]; simp
  · rw [hrel]; exact le_max_left _ _
  · intro h0
    rw [hpc] at h0
    constructor
    · rw [hrel, hval, h0]; norm_num
    · rw [hisr, h0]; decide
  · intro h5
    rw [hpc] at h5
    rw [hrel, hval]
    have : (1 : ℚ) - (n : ℚ) / 5 ≤ 0 := by
      have : (5 : ℚ) ≤ (n : ℚ) := by exact_mod_cast h5
      linarith
    exact max_eq_left this

/-- Witness for C8 at concrete inputs: an empty critic output gives score 1,
five problem lines give score 0. -/
theorem adversarial_scoring_properties_witness :
    (adversarial_score "").reliability_score = 1 ∧
    (adversarial_score "a\nb\nc\nd\ne").reliability_score = 0 :=
  ⟨((adversarial_scoring_properties "").2.2.2.2.1 (by decide)).1,
   (adversarial_scoring_properties "a\nb\nc\nd\ne").2.2.2.2.2 (by decide)⟩

/-! ## Overlap budget (claim C4) -/

/-- Counterexample to claim C4 as stated: on `chunk_size = 6`, `overlap = 2`,
the chunker closes the buffer `["a a a a a."]` and seeds the next chunk with
that whole 5-word sentence — a seed of 5 > 2 = `overlapWords` words, visible in
the second produced chunk. -/
theorem overlap_budget_counterexample :
    overlap_suffix ["a a a a a."] 2 = ["a a a a a."] ∧
    2 < wcL (overlap_suffix ["a a a a a."] 2) ∧
    (chunk_document_smart "a a a a a. b b b b b." 6 2).map Chunk.text =
      ["a a a a a.", "a a a a a. b b b b b."] := by
  refine ⟨by decide, by decide, by decide⟩

/-- Claim C4 (amended): the seed kept when a chunk closes is a suffix of the
closed buffer, taken from the end while the accumulated word count is still
below `overlapWords`; consequently the seed minus its first sentence has fewer
than `overlapWords` words (the seed itself may overshoot the budget by part of
one sentence), a shortened (proper) seed has at least `overlapWords` words, and
a zero budget keeps no seed. -/
theorem overlap_suffix_budget (buf : List String) (ov : Nat) :
    overlap_suffix buf ov <:+ buf ∧
    (overlap_suffix buf ov ≠ [] → wcL (overlap_suffix buf ov).tail < ov) ∧
    (overlap_suffix buf ov ≠ buf → ov ≤ wcL (overlap_suffix buf ov)) ∧
    (ov = 0 → overlap_suffix buf ov = []) := by
  refine ⟨overlap_suffix_is_suffix buf ov, overlap_suffix_tail_lt buf ov,
    overlap_suffix_proper_ge buf ov, ?_⟩
  rintro rfl
  cases hbuf : buf.reverse with
  | nil => simp [overlap_suffix, hbuf, overlapSuffixGo]
  | cons s rest => simp [overlap_suffix, hbuf, overlapSuffixGo]

/-- Witness for C4 at a concrete input. -/
theorem overlap_suffix_budget_witness :
    wcL (overlap_suffix ["aa bb", "cc"] 1).tail < 1 ∧
    1 ≤ wcL (overlap_suffix ["aa bb", "cc"] 1) :=
  ⟨(overlap_suffix_budget ["aa bb", "cc"] 1).2.1 (by decide),
   (overlap_suffix_budget ["aa bb", "cc"] 1).2.2.1 (by decide)⟩

/-! ## Claim verification (claim C2) -/

/-- Counterexample to claim C2 as stated: `"c def g"` occurs verbatim inside
`"abc def ghi jkl"` but fails the word-overlap gate (only 1 of its 3 words is a
whole document word), so it is NOT verified; conversely the 1-word claim
`"xy"` shares no whole word with `"axyb"` yet IS verified via the substring
branch. -/
theorem verify_claim_counterexample :
    pyIn "c def g" "abc def ghi jkl" = true ∧
    verify_claim_in_document "c def g" "abc def ghi jkl" = false ∧
    (pySplit (pyLower "xy")).filter (fun w => decide (w ∈ pySplit (pyLower "axyb"))) = [] ∧
    verify_claim_in_document "xy" "axyb" = true := by
  decide

/-- Claim C2 (amended): a claim of fewer than 3 words (after lowercasing and
whitespace splitting) that occurs verbatim as a contiguous substring of the
document is always verified; a claim of at least 3 words sharing no
(case-insensitively compared) whitespace-delimited word with the document is
never verified. -/
theorem verify_short_substring_and_disjoint (claim document : String) :
    ((pySplit (pyLower claim)).length < 3 → claim.data <:+: document.data →
      verify_claim_in_document claim document = true) ∧
    (3 ≤ (pySplit (pyLower claim)).length →
      (∀ w ∈ pySplit (pyLower claim), w ∉ pySplit (pyLower document)) →
      verify_claim_in_document claim document = false) := by
  constructor
  · intro hlen hsub
    unfold verify_claim_in_document
    rw [if_pos hlen]
    show pyInL (pyLowerL claim.data) (pyLowerL document.data) = true
    rw [pyInL_iff_contiguous]
    exact List.IsInfix.map _ hsub
  · intro hlen hdisj
    unfold verify_claim_in_document
    rw [if_neg (by omega)]
    simp only []
    have hinter : (firstOccurrences (pySplit (pyLower claim))).filter
        (fun w => decide (w ∈ pySplit (pyLower document))) = [] := by
      rw [List.filter_eq_nil_iff]
      intro w hw
      simp only [decide_eq_true_eq]
      exact hdisj w (mem_firstOccurrences.mp hw)
    have hne : 0 < (firstOccurrences (pySplit (pyLower claim))).length := by
      have h0 : 0 < (pySplit (pyLower claim)).length := by omega
      obtain ⟨w, hw⟩ := List.exists_mem_of_length_pos h0
      exact List.length_pos.mpr (List.ne_nil_of_mem (mem_firstOccurrences.mpr hw))
    rw [hinter]
    rw [if_pos (by simpa using hne)]

/-- Witness for C2 at concrete inputs. -/
theorem verify_short_substring_and_disjoint_witness :
    verify_claim_in_document "ab cd" "zz ab cd" = true ∧
    verify_claim_in_document "aa bb cc" "dd ee" = false :=
  ⟨(verify_short_substring_and_disjoint "ab cd" "zz ab cd").1 (by decide) (by decide),
   (verify_short_substring_and_disjoint "aa bb cc" "dd ee").2 (by decide) (by decide)⟩

/-! ## Orchestrator lemmas (claims C3 and C7) -/

/-- Success path of `analyze_advanced`: with valid inputs and a successful
adversarial call, the endpoint returns the reconciled payload. -/
theorem analyze_advanced_ok_eq (llm : Llm) (d q : String) (v : ValidationResult)
    (hd : pyStrip d ≠ "") (hq : pyStrip q ≠ "")
    (hld : (pyStrip d).length ≤ 200000) (hlq : (pyStrip q).length ≤ 1000)
    (hv : adversarial_validation llm (pyStrip d) (pyStrip q)
        (ensemble_extraction llm (pyStrip d) (pyStrip q) 3).consensus_answer = .ok v) :
    analyze_advanced llm d q = .ok
      { answer := if v.is_reliable then
            (ensemble_extraction llm (pyStrip d) (pyStrip q) 3).consensus_answer
          else (fact_extraction_validation llm (pyStrip d) (pyStrip q)).answer,
        confidence := (ensemble_extraction llm (pyStrip d) (pyStrip q) 3).confidence,
        reliability_score := v.reliability_score,
        validation := v,
        fact_validation := fact_extraction_validation llm (pyStrip d) (pyStrip q),
        is_reliable := v.is_reliable &&
          (fact_extraction_validation llm (pyStrip d) (pyStrip q)).reliable } := by
  unfold analyze_advanced
  rw [if_neg (not_or.mpr ⟨hd, hq⟩), if_neg (by omega), if_neg (by omega)]
  simp only []
  rw [hv]

/-- Failure path of `analyze_advanced`: the adversarial call is not guarded by
a local try/except, so its exception reaches the endpoint's outer handler. -/
theorem analyze_advanced_error_eq (llm : Llm) (d q : String) (e : String)
    (hd : pyStrip d ≠ "") (hq : pyStrip q ≠ "")
    (hld : (pyStrip d).length ≤ 200000) (hlq : (pyStrip q).length ≤ 1000)
    (he : adversarial_validation llm (pyStrip d) (pyStrip q)
        (ensemble_extraction llm (pyStrip d) (pyStrip q) 3).consensus_answer = .error e) :
    analyze_advanced llm d q = .serverError e := by
  unfold analyze_advanced
  rw [if_neg (not_or.mpr ⟨hd, hq⟩), if_neg (by omega), if_neg (by omega)]
  simp only []
  rw [he]

/-- Stage-1 failure of the fact-extraction validator. -/
theorem fact_validation_stage1_error (llm : Llm) (document query e : String)
    (h1 : llm (fact_request1 document query) = .error e) :
    fact_extraction_validation llm document query =
      { extracted_facts := "Error extracting facts: " ++ e,
        answer := "Unable to process request", validation_score := 0, reliable := false } := by
  unfold fact_extraction_validation
  rw [h1]

/-- Claim C3: for every successful run, the final answer is the ensemble's
consensus answer when the adversarial check reports `is_reliable = true` and
the fact-validator's answer otherwise, and the returned `is_reliable` flag is
the conjunction of the adversarial `is_reliable` and the fact-validator's
`reliable`. -/
theorem analyze_advanced_reconciliation (llm : Llm) (d q : String) (r : AnalyzeOk)
    (hok : analyze_advanced llm d q = .ok r) :
    r.answer = (if r.validation.is_reliable then
        (ensemble_extraction llm (pyStrip d) (pyStrip q) 3).consensus_answer
      else (fact_extraction_validation llm (pyStrip d) (pyStrip q)).answer) ∧
    r.is_reliable = (r.validation.is_reliable &&
      (fact_extraction_validation llm (pyStrip d) (pyStrip q)).reliable) := by
  unfold analyze_advanced at hok
  by_cases h1 : pyStrip d = "" ∨ pyStrip q = ""
  · rw [if_pos h1] at hok; exact absurd hok (by simp)
  · rw [if_neg h1] at hok
    by_cases h2 : 200000 < (pyStrip d).length
    · rw [if_pos h2] at hok; exact absurd hok (by simp)
    · rw [if_neg h2] at hok
      by_cases h3 : 1000 < (pyStrip q).length
      · rw [if_pos h3] at hok; exact absurd hok (by simp)
      · rw [if_neg h3] at hok
        simp only [] at hok
        cases hadv : adversarial_validation llm (pyStrip d) (pyStrip q)
            (ensemble_extraction llm (pyStrip d) (pyStrip q) 3).consensus_answer with
        | error e => rw [hadv] at hok; exact absurd hok (by simp)
        | ok v =>
          rw [hadv] at hok
          simp only [AnalyzeOutcome.ok.injEq] at hok
          subst hok
          exact ⟨rfl, rfl⟩

set_option maxRecDepth 8000 in
/-- Witness for C3 at a concrete input: all calls succeed with `"ok"`; the
critic output is one problem line, so `is_reliable = true` and the consensus
answer is kept, while the fact validator scores 0 (`reliable = false`), making
the returned flag `true && false = false`. -/
theorem analyze_advanced_reconciliation_witness :
    ({ answer := "ok", confidence := mkRat 1 2,
       reliability_score := max 0 (mkRat 4 5),
       validation := { problems_found := "ok", problem_count := 1,
                       reliability_score := max 0 (mkRat 4 5), is_reliable := true },
       fact_validation := { extracted_facts := "ok", answer := "ok",
                            validation_score := mkRat 0 1, reliable := false },
       is_reliable := false } : AnalyzeOk).answer =
      (if ({ answer := "ok", confidence := mkRat 1 2,
             reliability_score := max 0 (mkRat 4 5),
             validation := { problems_found := "ok", problem_count := 1,
                             reliability_score := max 0 (mkRat 4 5), is_reliable := true },
             fact_validation := { extracted_facts := "ok", answer := "ok",
                                  validation_score := mkRat 0 1, reliable := false },
             is_reliable := false } : AnalyzeOk).validation.is_reliable then
        (ensemble_extraction okLlm (pyStrip "Paris is nice.")
          (pyStrip "Is it nice?") 3).consensus_answer
      else (fact_extraction_validation okLlm (pyStrip "Paris is nice.")
        (pyStrip "Is it nice?")).answer) ∧
    ({ answer := "ok", confidence := mkRat 1 2,
       reliability_score := max 0 (mkRat 4 5),
       validation := { problems_found := "ok", problem_count := 1,
                       reliability_score := max 0 (mkRat 4 5), is_reliable := true },
       fact_validation := { extracted_facts := "ok", answer := "ok",
                            validation_score := mkRat 0 1, reliable := false },
       is_reliable := false } : AnalyzeOk).is_reliable =
      (({ answer := "ok", confidence := mkRat 1 2,
          reliability_score := max 0 (mkRat 4 5),
          validation := { problems_found := "ok", problem_count := 1,
                          reliability_score := max 0 (mkRat 4 5), is_reliable := true },
          fact_validation := { extracted_facts := "ok", answer := "ok",
                               validation_score := mkRat 0 1, reliable := false },
          is_reliable := false } : AnalyzeOk).validation.is_reliable &&
        (fact_extraction_validation okLlm (pyStrip "Paris is nice.")
          (pyStrip "Is it nice?")).reliable) :=
  analyze_advanced_reconciliation okLlm "Paris is nice." "Is it nice?" _ (by decide)

/-! ## Error-handling policy (claim C7) -/

set_option maxRecDepth 8000 in
/-- Counterexample to claim C7 as stated: with valid inputs, an LLM failure in
the adversarial-validation call makes the endpoint return an error response
(the 500 handler), not a best-effort answer. -/
theorem adversarial_failure_aborts_counterexample :
    analyze_advanced critLlm "Paris is nice." "Is Paris nice?" = .serverError "boom" := by
  decide

/-- Claim C7 (amended): for inputs passing validation, failures of individual
ensemble passes or fact-extraction calls never abort the request — whenever the
adversarial-validation call succeeds the endpoint returns a success payload
with a reliability signal — but a failure of the adversarial-validation call
itself aborts the request with an error response; and a failure of the
mandatory stage-1 fact-extraction call yields the explicit
`"Unable to process request"` answer with `reliable = false` (surfaced as the
final answer when the adversarial check deems the consensus answer
unreliable), forcing the returned `is_reliable` flag to `false`. -/
theorem pipeline_failure_policy (llm : Llm) (d q : String)
    (hd : pyStrip d ≠ "") (hq : pyStrip q ≠ "")
    (hld : (pyStrip d).length ≤ 200000) (hlq : (pyStrip q).length ≤ 1000) :
    (∀ e, adversarial_validation llm (pyStrip d) (pyStrip q)
        (ensemble_extraction llm (pyStrip d) (pyStrip q) 3).consensus_answer = .error e →
      analyze_advanced llm d q = .serverError e) ∧
    (∀ v, adversarial_validation llm (pyStrip d) (pyStrip q)
        (ensemble_extraction llm (pyStrip d) (pyStrip q) 3).consensus_answer = .ok v →
      ∃ r, analyze_advanced llm d q = .ok r ∧
        r.answer = (if v.is_reliable then
            (ensemble_extraction llm (pyStrip d) (pyStrip q) 3).consensus_answer
          else (fact_extraction_validation llm (pyStrip d) (pyStrip q)).answer)) ∧
    (∀ e, llm (fact_request1 (pyStrip d) (pyStrip q)) = .error e →
      (fact_extraction_validation llm (pyStrip d) (pyStrip q)).answer =
        "Unable to process request" ∧
      (fact_extraction_validation llm (pyStrip d) (pyStrip q)).reliable = false ∧
      (∀ v, adversarial_validation llm (pyStrip d) (pyStrip q)
          (ensemble_extraction llm (pyStrip d) (pyStrip q) 3).consensus_answer = .ok v →
        ∃ r, analyze_advanced llm d q = .ok r ∧ r.is_reliable = false ∧
          (v.is_reliable = false → r.answer = "Unable to process request"))) := by
  refine ⟨?_, ?_, ?_⟩
  · intro e he
    exact analyze_advanced_error_eq llm d q e hd hq hld hlq he
  · intro v hv
    exact ⟨_, analyze_advanced_ok_eq llm d q v hd hq hld hlq hv, rfl⟩
  · intro e h1
    have hfact := fact_validation_stage1_error llm (pyStrip d) (pyStrip q) e h1
    refine ⟨by rw [hfact], by rw [hfact], ?_⟩
    intro v hv
    refine ⟨_, analyze_advanced_ok_eq llm d q v hd hq hld hlq hv, ?_, ?_⟩
    · show (v.is_reliable &&
        (fact_extraction_validation llm (pyStrip d) (pyStrip q)).reliable) = false
      rw [hfact]
      simp
    · intro hvr
      show (if v.is_reliable then
          (ensemble_extraction llm (pyStrip d) (pyStrip q) 3).consensus_answer
        else (fact_extraction_validation llm (pyStrip d) (pyStrip q)).answer) =
        "Unable to process request"
      rw [hvr, hfact]
      simp

set_option maxRecDepth 8000 in
/-- Witness for C7 at concrete inputs: the critic-failing oracle produces the
error response, and the fact-stage-1-failing oracle produces the explicit
unable-to-process fact answer. -/
theorem pipeline_failure_policy_witness :
    analyze_advanced critLlm "Rome is old." "Is Rome old?" = .serverError "boom" ∧
    (fact_extraction_validation factFailLlm (pyStrip "Doc.") (pyStrip "Q?")).answer =
      "Unable to process request" :=
  ⟨(pipeline_failure_policy critLlm "Rome is old." "Is Rome old?"
      (by decide) (by decide) (by decide) (by decide)).1 "boom" (by decide),
   ((pipeline_failure_policy factFailLlm "Doc." "Q?"
      (by decide) (by decide) (by decide) (by decide)).2.2 "down" (by decide)).1⟩

/-! ## Diversified retrieval lemmas (claim C1) -/

theorem mem_insertDesc {x m : RMatch} :
    ∀ {l : List RMatch}, x ∈ insertDesc m l ↔ x = m ∨ x ∈ l := by
  intro l
  induction l with
  | nil => simp [insertDesc]
  | cons y ys ih =>
    simp only [insertDesc]
    by_cases h : y.score < m.score
    · rw [if_pos h]; simp [List.mem_cons]
    · rw [if_neg h]
      simp only [List.mem_cons, ih]
      tauto

theorem length_insertDesc (m : RMatch) :
    ∀ (l : List RMatch), (insertDesc m l).length = l.length + 1 := by
  intro l
  induction l with
  | nil => rfl
  | cons y ys ih =>
    simp only [insertDesc]
    by_cases h : y.score < m.score
    · rw [if_pos h]; rfl
    · rw [if_neg h]; simp [ih]

theorem mem_sortFold {x : RMatch} :
    ∀ (l acc : List RMatch),
      x ∈ List.foldl (fun acc m => insertDesc m acc) acc l ↔ x ∈ l ∨ x ∈ acc := by
  intro l
  induction l with
  | nil => intro acc; simp
  | cons m rest ih =>
    intro acc
    rw [List.foldl_cons, ih]
    simp only [mem_insertDesc, List.mem_cons]
    tauto

theorem mem_sortDesc {x : RMatch} {l : List RMatch} : x ∈ sortDesc l ↔ x ∈ l := by
  unfold sortDesc
  rw [mem_sortFold]
  simp

theorem length_sortFold :
    ∀ (l acc : List RMatch),
      (List.foldl (fun acc m => insertDesc m acc) acc l).length = l.length + acc.length := by
  intro l
  induction l with
  | nil => intro acc; simp
  | cons m rest ih =>
    intro acc
    rw [List.foldl_cons, ih, length_insertDesc]
    simp only [List.length_cons]
    omega

theorem length_sortDesc (l : List RMatch) : (sortDesc l).length = l.length := by
  unfold sortDesc
  rw [length_sortFold]
  simp

theorem addMatch_nonempty (m : RMatch) :
    ∀ (gs : List (String × List RMatch)), (∀ g ∈ gs, g.2 ≠ []) →
      ∀ g ∈ addMatch m gs, g.2 ≠ [] := by
  intro gs
  induction gs with
  | nil =>
    intro _ g hg
    simp only [addMatch, List.mem_singleton] at hg
    subst hg; simp
  | cons g0 rest ih =>
    intro h g hg
    simp only [addMatch] at hg
    by_cases hc : g0.1 = m.source
    · rw [if_pos hc] at hg
      rcases List.mem_cons.mp hg with rfl | hg2
      · simp
      · exact h g (List.mem_cons_of_mem _ hg2)
    · rw [if_neg hc] at hg
      rcases List.mem_cons.mp hg with rfl | hg2
      · exact h g (List.mem_cons_self _ _)
      · exact ih (fun g' hg' => h g' (List.mem_cons_of_mem _ hg')) g hg2

theorem addMatch_source (m : RMatch) :
    ∀ (gs : List (String × List RMatch)),
      (∀ g ∈ gs, ∀ x ∈ g.2, x.source = g.1) →
      ∀ g ∈ addMatch m gs, ∀ x ∈ g.2, x.source = g.1 := by
  intro gs
  induction gs with
  | nil =>
    intro _ g hg x hx
    simp only [addMatch, List.mem_singleton] at hg
    subst hg
    simp only [List.mem_singleton] at hx
    subst hx; rfl
  | cons g0 rest ih =>
    intro h g hg x hx
    simp only [addMatch] at hg
    by_cases hc : g0.1 = m.source
    · rw [if_pos hc] at hg
      rcases List.mem_cons.mp hg with rfl | hg2
      · rcases List.mem_append.mp hx with hx2 | hx2
        · exact h g0 (List.mem_cons_self _ _) x hx2
        · simp only [List.mem_singleton] at hx2; subst hx2; exact hc.symm
      · exact h g (List.mem_cons_of_mem _ hg2) x hx
    · rw [if_neg hc] at hg
      rcases List.mem_cons.mp hg with rfl | hg2
      · exact h g (List.mem_cons_self _ _) x hx
      · exact ih (fun g' hg' y hy => h g' (List.mem_cons_of_mem _ hg') y hy) g hg2 x hx

theorem groupFold_nonempty :
    ∀ (ms : List RMatch) (acc : List (String × List RMatch)),
      (∀ g ∈ acc, g.2 ≠ []) →
      ∀ g ∈ List.foldl (fun a m => addMatch m a) acc ms, g.2 ≠ [] := by
  intro ms
  induction ms with
  | nil => intro acc h; simpa using h
  | cons m rest ih =>
    intro acc h
    exact ih (addMatch m acc) (addMatch_nonempty m acc h)

theorem groupFold_source :
    ∀ (ms : List RMatch) (acc : List (String × List RMatch)),
      (∀ g ∈ acc, ∀ x ∈ g.2, x.source = g.1) →
      ∀ g ∈ List.foldl (fun a m => addMatch m a) acc ms, ∀ x ∈ g.2, x.source = g.1 := by
  intro ms
  induction ms with
  | nil => intro acc h; simpa using h
  | cons m rest ih =>
    intro acc h
    exact ih (addMatch m acc) (addMatch_source m acc h)

theorem groupBySource_nonempty (ms : List RMatch) :
    ∀ g ∈ groupBySource ms, g.2 ≠ [] :=
  groupFold_nonempty ms [] (by simp)

theorem groupBySource_source (ms : List RMatch) :
    ∀ g ∈ groupBySource ms, ∀ x ∈ g.2, x.source = g.1 :=
  groupFold_source ms [] (by simp)

theorem addMatch_keys (m : RMatch) :
    ∀ (gs : List (String × List RMatch)),
      (addMatch m gs).map Prod.fst =
        if m.source ∈ gs.map Prod.fst then gs.map Prod.fst
        else gs.map Prod.fst ++ [m.source] := by
  intro gs
  induction gs with
  | nil => simp [addMatch]
  | cons g rest ih =>
    simp only [addMatch]
    by_cases h : g.1 = m.source
    · rw [if_pos h]
      rw [if_pos (by simp [h])]
      simp
    · rw [if_neg h]
      simp only [List.map_cons, ih]
      by_cases h2 : m.source ∈ rest.map Prod.fst
      · rw [if_pos h2, if_pos (List.mem_cons_of_mem _ h2)]
      · rw [if_neg h2, if_neg (by
          simp only [List.mem_cons]
          rintro (hc | hc)
          · exact h hc.symm
          · exact h2 hc)]
        simp

theorem firstOccGo_seen_congr :
    ∀ (l s1 s2 : List String), (∀ x, x ∈ s1 ↔ x ∈ s2) →
      firstOccGo l s1 = firstOccGo l s2 := by
  intro l
  induction l with
  | nil => intro s1 s2 _; rfl
  | cons y ys ih =>
    intro s1 s2 hs
    simp only [firstOccGo]
    by_cases h : y ∈ s1
    · rw [if_pos h, if_pos ((hs y).mp h), ih s1 s2 hs]
    · rw [if_neg h, if_neg (fun hc => h ((hs y).mpr hc)),
        ih (y :: s1) (y :: s2) (by intro x; simp [List.mem_cons, hs x])]

theorem groupFold_keys :
    ∀ (ms : List RMatch) (acc : List (String × List RMatch)),
      (List.foldl (fun a m => addMatch m a) acc ms).map Prod.fst =
        acc.map Prod.fst ++ firstOccGo (ms.map RMatch.source) (acc.map Prod.fst) := by
  intro ms
  induction ms with
  | nil => intro acc; simp [firstOccGo]
  | cons m rest ih =>
    intro acc
    rw [List.foldl_cons, ih (addMatch m acc), addMatch_keys]
    simp only [List.map_cons, firstOccGo]
    by_cases h : m.source ∈ acc.map Prod.fst
    · rw [if_pos h, if_pos h]
    · rw [if_neg h, if_neg h,
        firstOccGo_seen_congr (rest.map RMatch.source)
          (acc.map Prod.fst ++ [m.source]) (m.source :: acc.map Prod.fst)
          (by intro x; simp [or_comm])]
      simp

theorem groupBySource_keys (ms : List RMatch) :
    (groupBySource ms).map Prod.fst = sourcesOf ms := by
  unfold groupBySource sourcesOf firstOccurrences
  rw [groupFold_keys]
  simp

theorem flatMap_take_length_le (k : Nat) :
    ∀ (gs : List (String × List RMatch)),
      (gs.flatMap (fun g => g.2.take k)).length ≤ k * gs.length := by
  intro gs
  induction gs with
  | nil => simp
  | cons g rest ih =>
    simp only [List.flatMap_cons, List.length_append, List.length_cons]
    have h1 : (g.2.take k).length ≤ k := by
      rw [List.length_take]; exact min_le_left _ _
    have h2 : k * (rest.length + 1) = k * rest.length + k := by ring
    omega

theorem flatMap_take_one_length :
    ∀ (gs : List (String × List RMatch)), (∀ g ∈ gs, g.2 ≠ []) →
      (gs.flatMap (fun g => g.2.take 1)).length = gs.length := by
  intro gs
  induction gs with
  | nil => intro _; simp
  | cons g rest ih =>
    intro h
    simp only [List.flatMap_cons, List.length_append, List.length_cons]
    have h0 : 0 < g.2.length := List.length_pos.mpr (h g (List.mem_cons_self _ _))
    have h1 : (g.2.take 1).length = 1 := by
      rw [List.length_take]; omega
    rw [h1, ih (fun g' hg' => h g' (List.mem_cons_of_mem _ hg'))]
    omega

theorem exists_mem_take (k : Nat) (hk : 1 ≤ k) (l : List RMatch) (hl : l ≠ []) :
    ∃ y, y ∈ l.take k ∧ y ∈ l := by
  cases l with
  | nil => exact absurd rfl hl
  | cons y t =>
    cases k with
    | zero => omega
    | succ k => exact ⟨y, by simp, by simp⟩

/-- Claim C1: diversified-retrieval coverage.  For every candidate list with
`S` distinct sources (each source necessarily contributing ≥ 1 candidate): if
`S ≤ topK` the diversified selection contains at least one match from every
source, and if `topK < S` it has length exactly `topK` and so represents at
most `topK` sources. -/
theorem diversified_retrieval_coverage (ms : List RMatch) (top_k : Nat) :
    ((sourcesOf ms).length ≤ top_k →
      ∀ s ∈ sourcesOf ms, ∃ m, m ∈ diversify_matches ms top_k ∧ m.source = s) ∧
    (top_k < (sourcesOf ms).length →
      (diversify_matches ms top_k).length = top_k ∧
      (sourcesOf (diversify_matches ms top_k)).length ≤ top_k) := by
  have hkeys : (groupBySource ms).map Prod.fst = sourcesOf ms := groupBySource_keys ms
  have hglen : (groupBySource ms).length = (sourcesOf ms).length := by
    rw [← hkeys, List.length_map]
  constructor
  · intro hSk s hs
    rw [← hkeys] at hs
    obtain ⟨g, hg, hgfst⟩ := List.mem_map.mp hs
    have hpos : 0 < (groupBySource ms).length := List.length_pos.mpr (List.ne_nil_of_mem hg)
    have hSle : (groupBySource ms).length ≤ top_k := by omega
    have hdiv1 : 1 ≤ top_k / (groupBySource ms).length :=
      (Nat.one_le_div_iff hpos).mpr hSle
    have hcps : max 1 (top_k / (groupBySource ms).length) =
        top_k / (groupBySource ms).length := max_eq_right hdiv1
    have hmul : (top_k / (groupBySource ms).length) * (groupBySource ms).length ≤ top_k :=
      Nat.div_mul_le_self _ _
    have hgne : g.2 ≠ [] := groupBySource_nonempty ms g hg
    obtain ⟨y, hyt, hyg⟩ :=
      exists_mem_take (max 1 (top_k / (groupBySource ms).length)) (le_max_left _ _) g.2 hgne
    have hysrc : y.source = s := by
      rw [← hgfst]; exact groupBySource_source ms g hg y hyg
    have hyfp : y ∈ (groupBySource ms).flatMap
        (fun g => g.2.take (max 1 (top_k / (groupBySource ms).length))) :=
      List.mem_flatMap.mpr ⟨g, hg, hyt⟩
    have hfp_len : ((groupBySource ms).flatMap
        (fun g => g.2.take (max 1 (top_k / (groupBySource ms).length)))).length ≤
          (max 1 (top_k / (groupBySource ms).length)) * (groupBySource ms).length :=
      flatMap_take_length_le _ _
    have hcpsS : (max 1 (top_k / (groupBySource ms).length)) * (groupBySource ms).length ≤
        top_k := by
      rw [hcps]; exact Nat.div_mul_le_self _ _
    have hfp_le : ((groupBySource ms).flatMap
        (fun g => g.2.take (max 1 (top_k / (groupBySource ms).length)))).length ≤ top_k := by
      omega
    refine ⟨y, ?_, hysrc⟩
    unfold diversify_matches
    simp only []
    rw [if_pos hpos]
    by_cases hrem : 0 < top_k -
        (max 1 (top_k / (groupBySource ms).length)) * (groupBySource ms).length
    · rw [if_pos hrem]
      have hextra : ((sortDesc ((groupBySource ms).flatMap
          (fun g => g.2.drop (max 1 (top_k / (groupBySource ms).length))))).take
            (top_k - (max 1 (top_k / (groupBySource ms).length)) *
              (groupBySource ms).length)).length ≤
          top_k - (max 1 (top_k / (groupBySource ms).length)) * (groupBySource ms).length := by
        rw [List.length_take]; exact min_le_left _ _
      have htot : (((groupBySource ms).flatMap
          (fun g => g.2.take (max 1 (top_k / (groupBySource ms).length)))) ++
            ((sortDesc ((groupBySource ms).flatMap
              (fun g => g.2.drop (max 1 (top_k / (groupBySource ms).length))))).take
                (top_k - (max 1 (top_k / (groupBySource ms).length)) *
                  (groupBySource ms).length))).length ≤ top_k := by
        rw [List.length_append]
        omega
      rw [List.take_of_length_le (by rw [length_sortDesc]; exact htot)]
      exact mem_sortDesc.mpr (List.mem_append_left _ hyfp)
    · rw [if_neg hrem]
      rw [List.take_of_length_le (by rw [length_sortDesc]; exact hfp_le)]
      exact mem_sortDesc.mpr hyfp
  · intro hkS
    have hpos : 0 < (groupBySource ms).length := by omega
    have hdiv0 : top_k / (groupBySource ms).length = 0 :=
      Nat.div_eq_of_lt (by omega)
    have hcps : max 1 (top_k / (groupBySource ms).length) = 1 := by
      rw [hdiv0]; omega
    have hlen : (diversify_matches ms top_k).length = top_k := by
      unfold diversify_matches
      simp only []
      rw [if_pos hpos, hcps]
      rw [if_neg (by omega)]
      rw [List.length_take, length_sortDesc,
        flatMap_take_one_length (groupBySource ms) (groupBySource_nonempty ms)]
      omega
    refine ⟨hlen, ?_⟩
    have h1 := firstOccurrences_length_le ((diversify_matches ms top_k).map RMatch.source)
    rw [List.length_map] at h1
    unfold sourcesOf
    omega

/-- Witness for C1 at a concrete input: three sources among five candidates;
with `topK = 5` every source is covered, with `topK = 2` exactly two matches
are returned. -/
theorem diversified_retrieval_coverage_witness :
    (∃ m, m ∈ diversify_matches
        [⟨"A", 9⟩, ⟨"A", 8⟩, ⟨"B", 7⟩, ⟨"C", 6⟩, ⟨"B", 5⟩] 5 ∧ m.source = "C") ∧
    (diversify_matches [⟨"A", 9⟩, ⟨"A", 8⟩, ⟨"B", 7⟩, ⟨"C", 6⟩, ⟨"B", 5⟩] 2).length = 2 :=
  ⟨(diversified_retrieval_coverage [⟨"A", 9⟩, ⟨"A", 8⟩, ⟨"B", 7⟩, ⟨"C", 6⟩, ⟨"B", 5⟩] 5).1
      (by decide) "C" (by decide),
   ((diversified_retrieval_coverage [⟨"A", 9⟩, ⟨"A", 8⟩, ⟨"B", 7⟩, ⟨"C", 6⟩, ⟨"B", 5⟩] 2).2
      (by decide)).1⟩

/-! ## Chunk word-count bound (claim C6) -/

theorem joinSp_singleton (s : String) : joinSp [s] = s := rfl

theorem goodChunk_of_shape (allS : List String) (chunk_size ov : Nat)
    (current : List String)
    (hshape : wcL current ≤ chunk_size ∨ InitShape allS ov current)
    (c : Chunk) (htext : c.text = joinSp current) :
    GoodChunk allS chunk_size ov c := by
  rcases hshape with hle | hinit
  · left; rw [htext, wc_joinSp]; exact hle
  · rcases hinit with ⟨s, hs, hone⟩ | ⟨pre, s, hpre, hs, heq⟩
    · by_cases hsc : wc s ≤ chunk_size
      · left; rw [htext, hone, joinSp_singleton]; exact hsc
      · right; left
        exact ⟨s, hs, by rw [htext, hone, joinSp_singleton], by omega⟩
    · right; right
      exact ⟨pre, s, hpre, hs, by rw [htext, heq]⟩

theorem chunkLoop_good (allS : List String) (chunk_size ov n : Nat) :
    ∀ (pend : List (Nat × String)) (current : List String) (curLen : Nat) (acc : List Chunk),
      (∀ p ∈ pend, p.2 ∈ allS) →
      (∀ t ∈ current, t ∈ allS) →
      curLen = wcL current →
      (∀ c ∈ acc, GoodChunk allS chunk_size ov c) →
      (curLen ≤ chunk_size ∨ InitShape allS ov current) →
      ∀ c ∈ chunkLoop chunk_size ov n pend current curLen acc,
        GoodChunk allS chunk_size ov c := by
  intro pend
  induction pend with
  | nil =>
    intro current curLen acc hpend hcur hlen hacc hshape c hc
    simp only [chunkLoop] at hc
    by_cases hc0 : current = []
    · rw [if_pos hc0] at hc; exact hacc c hc
    · rw [if_neg hc0] at hc
      rcases List.mem_append.mp hc with h | h
      · exact hacc c h
      · simp only [List.mem_singleton] at h
        subst h
        exact goodChunk_of_shape allS chunk_size ov current (hlen ▸ hshape) _ rfl
  | cons p rest ih =>
    intro current curLen acc hpend hcur hlen hacc hshape c hc
    obtain ⟨i, sentence⟩ := p
    have hsent : sentence ∈ allS := hpend (i, sentence) (List.mem_cons_self _ _)
    have hpend' : ∀ p ∈ rest, p.2 ∈ allS := fun p hp => hpend p (List.mem_cons_of_mem _ hp)
    simp only [chunkLoop] at hc
    by_cases hcond : chunk_size < curLen + wc sentence ∧ current ≠ []
    · rw [if_pos hcond] at hc
      refine ih _ _ _ hpend' ?_ rfl ?_ ?_ c hc
      · intro t ht
        rcases List.mem_append.mp ht with ht2 | ht2
        · exact hcur t (mem_of_mem_overlap_suffix ht2)
        · simp only [List.mem_singleton] at ht2; subst ht2; exact hsent
      · intro c' hc'
        rcases List.mem_append.mp hc' with h | h
        · exact hacc c' h
        · simp only [List.mem_singleton] at h
          subst h
          exact goodChunk_of_shape allS chunk_size ov current (hlen ▸ hshape) _ rfl
      · right; right
        exact ⟨current, sentence, hcur, hsent, rfl⟩
    · rw [if_neg hcond] at hc
      have hcond' : chunk_size < curLen + wc sentence → current = [] := by
        intro hlt
        by_contra hne
        exact hcond ⟨hlt, hne⟩
      refine ih _ _ _ hpend' ?_ ?_ hacc ?_ c hc
      · intro t ht
        rcases List.mem_append.mp ht with ht2 | ht2
        · exact hcur t ht2
        · simp only [List.mem_singleton] at ht2; subst ht2; exact hsent
      · rw [wcL_append, ← hlen]; simp [wcL]
      · by_cases h1 : curLen + wc sentence ≤ chunk_size
        · left; exact h1
        · right
          have hnil : current = [] := hcond' (by omega)
          left
          exact ⟨sentence, hsent, by simp [hnil]⟩

/-- Claim C6 (amended): every produced chunk's word count is at most
`chunk_size`, except a chunk that is a single sentence of the text whose own
word count exceeds `chunk_size`, or a chunk consisting of an overlap seed
(computed by `overlap_suffix` from a buffer of the text's sentences) followed
by the single sentence that triggered the previous chunk's closure. -/
theorem chunk_word_count_bound (text : String) (chunk_size ov : Nat) (c : Chunk)
    (hc : c ∈ chunk_document_smart text chunk_size ov) :
    wc c.text ≤ chunk_size ∨
    (∃ s, s ∈ splitSentText text ∧ c.text = s ∧ chunk_size < wc s) ∨
    (∃ pre s, (∀ t ∈ pre, t ∈ splitSentText text) ∧ s ∈ splitSentText text ∧
      c.text = joinSp (overlap_suffix pre ov ++ [s])) := by
  unfold chunk_document_smart at hc
  simp only [] at hc
  exact chunkLoop_good (splitSentText text) chunk_size ov (splitSentText text).length
    (splitSentText text).enum [] 0 []
    (fun p hp => snd_mem_of_mem_enum hp)
    (by simp) rfl (by simp) (Or.inl (Nat.zero_le _)) c hc

set_option maxRecDepth 8000 in
/-- Counterexample to claim C6 as stated: with `chunk_size = 6`, `overlap = 2`,
the second produced chunk has 10 words (> 6) and consists of two sentences of
5 words each — it is not a single over-long sentence. -/
theorem chunk_size_bound_counterexample :
    (chunk_document_smart "a a a a a. b b b b b." 6 2).map Chunk.text =
      ["a a a a a.", "a a a a a. b b b b b."] ∧
    wc "a a a a a. b b b b b." = 10 ∧
    6 < wc "a a a a a. b b b b b." ∧
    splitSentText "a a a a a. b b b b b." = ["a a a a a.", "b b b b b."] ∧
    wc "a a a a a." = 5 ∧ wc "b b b b b." = 5 := by
  refine ⟨by decide, by decide, by decide, by decide, by decide, by decide⟩

set_option maxRecDepth 8000 in
/-- Witness for C6 at a concrete input. -/
theorem chunk_word_count_bound_witness :
    wc ((chunk_document_smart "Hi there. Bye now." 800 100).headD
        (mkChunk "" (0, 0) 0)).text ≤ 800 ∨
    (∃ s, s ∈ splitSentText "Hi there. Bye now." ∧
      ((chunk_document_smart "Hi there. Bye now." 800 100).headD
        (mkChunk "" (0, 0) 0)).text = s ∧ 800 < wc s) ∨
    (∃ pre s, (∀ t ∈ pre, t ∈ splitSentText "Hi there. Bye now.") ∧
      s ∈ splitSentText "Hi there. Bye now." ∧
      ((chunk_document_smart "Hi there. Bye now." 800 100).headD
        (mkChunk "" (0, 0) 0)).text = joinSp (overlap_suffix pre 100 ++ [s])) :=
  chunk_word_count_bound "Hi there. Bye now." 800 100 _ (by decide)
